import Mathlib

/-!
Shallow embedding of the SDFAI interactive terminal-automation engine
(`src/connection_manager.py`, `src/sdf/com.py`) together with proofs of the
behavioural properties stated in the specification.

Modelling conventions:
* Wall-clock time is discretised: one tick of the expect poll loop stands for
  one 0.1 s `_read_output` round; timestamps are naturals.
* The remote byte stream is an oracle `chunks : Nat → String` giving the data
  drained by the i-th polling read.
* `re.search(pattern, buf, re.IGNORECASE | re.MULTILINE)` is abstracted by a
  predicate `search : String → Bool` on the accumulated buffer; for literal
  patterns it is instantiated with the case-insensitive substring search
  `reSearchCI`.
* Exceptions raised inside `try` blocks of the Python source are modelled by
  boolean oracles (`writeOk`, `createOk`, ...): a `false` oracle means the
  guarded operation raised and the corresponding `except` branch ran.
-/

namespace Sdfai

/-- Python whitespace class used by `str.strip` and by the regex class `\s`
(ASCII part). -/
def isPyWs (c : Char) : Bool :=
  c == ' ' || c == '\t' || c == '\n' || c == '\r' || c == '\x0b' || c == '\x0c'

/-- CommandResult value type, `src/connection_manager.py` lines 55-61.  The
wall-clock `duration` and `exit_code` fields are not modelled (no claim
mentions them). -/
structure CommandResult where
  success : Bool
  output : String
  error : String
  deriving Repr, DecidableEq

/-- Expect-buffer content after `k` polling reads: `_read_output` (lines
295-324) appends each drained chunk to `self._expect_buffer`, so after `k`
rounds the buffer holds the concatenation of the first `k` oracle chunks. -/
def bufAt (chunks : Nat → String) : Nat → String
  | 0 => ""
  | k + 1 => bufAt chunks k ++ chunks k

theorem bufAt_succ (chunks : Nat → String) (k : Nat) :
    bufAt chunks (k + 1) = bufAt chunks k ++ chunks k := rfl

/-- Result of one `expect` call: final buffer content, number of polling
rounds executed, and the found flag. -/
structure ExpectResult where
  buf : String
  elapsed : Nat
  found : Bool
  deriving Repr

/-- AsyncSSHConnection.expect, lines 326-335: while the timeout (counted in
polling ticks of 0.1 s) is not exhausted, drain one chunk into the buffer and
test the pattern on the whole buffer; return `true` on the first match and
`false` once the tick budget is spent.  `search` abstracts
`re.search(pattern, ., IGNORECASE | MULTILINE)`; `elapsed` is the index of the
next polling read. -/
def expectRun (search : String → Bool) (chunks : Nat → String) :
    String → Nat → Nat → ExpectResult
  | buf, elapsed, 0 => ⟨buf, elapsed, false⟩
  | buf, elapsed, fuel + 1 =>
    if search (buf ++ chunks elapsed) then ⟨buf ++ chunks elapsed, elapsed + 1, true⟩
    else expectRun search chunks (buf ++ chunks elapsed) (elapsed + 1) fuel

/-- Lower-casing of a string, character by character (ASCII letters only, as
in Lean's `Char.toLower`; the claim inputs are ASCII). -/
def strLower (s : String) : String :=
  String.mk (s.data.map Char.toLower)

/-- Upper-casing of a string, character by character. -/
def strUpper (s : String) : String :=
  String.mk (s.data.map Char.toUpper)

/-- Case-insensitive search for a literal pattern: the IGNORECASE semantics of
`re.search` on a regex-metacharacter-free pattern (MULTILINE only changes
`^`/`$`, which a literal pattern does not contain). -/
def reSearchCI (pat buf : String) : Bool :=
  decide (List.IsInfix (strLower pat).data (strLower buf).data)

theorem char_toNat_ofNat_valid (n : Nat) (h : n < 55296) :
    (Char.ofNat n).toNat = n := by
  rw [Char.ofNat, dif_pos (Or.inl h)]
  rfl

theorem char_toLower_toUpper (c : Char) : c.toUpper.toLower = c.toLower := by
  by_cases h : 97 ≤ c.toNat ∧ c.toNat ≤ 122
  · have hup : c.toUpper = Char.ofNat (c.toNat - 32) := by
      rw [Char.toUpper, if_pos]
      exact ⟨h.1, h.2⟩
    have hval : (Char.ofNat (c.toNat - 32)).toNat = c.toNat - 32 :=
      char_toNat_ofNat_valid _ (by omega)
    have hlow : (Char.ofNat (c.toNat - 32)).toLower
        = Char.ofNat (c.toNat - 32 + 32) := by
      rw [Char.toLower, hval, if_pos]
      omega
    have hid : c.toNat - 32 + 32 = c.toNat := by omega
    have hrhs : c.toLower = c := by
      rw [Char.toLower, if_neg]
      omega
    rw [hup, hlow, hid, Char.ofNat_toNat, hrhs]
  · have hup : c.toUpper = c := by
      rw [Char.toUpper, if_neg]
      omega
    rw [hup]

theorem strLower_strUpper (s : String) : strLower (strUpper s) = strLower s := by
  simp only [strLower, strUpper, List.map_map]
  congr 1
  exact List.map_congr_left fun c _ => char_toLower_toUpper c

theorem reSearchCI_strUpper (pat buf : String) :
    reSearchCI pat (strUpper buf) = reSearchCI pat buf := by
  simp only [reSearchCI, strLower_strUpper]

/-- AsyncSSHConnection.send, lines 337-352: returns `False` when
`self._writer` is absent, or when the write/drain raised (`writeOk = false`);
otherwise writes the data plus newline, settles 0.1 s and returns `True`. -/
def send (writerIsSet writeOk : Bool) : Bool :=
  if writerIsSet then writeOk else false

/-- AsyncSSHConnection.send_and_expect, lines 354-376.  `bufBefore` is the
expect-buffer content on entry; the method starts by clearing it
(`self._expect_buffer = ""`), hence the expect run below starts from the empty
buffer whatever `bufBefore` was.  Returns the CommandResult together with the
expect-buffer content at the time the method returns. -/
def send_and_expect (writerIsSet writeOk : Bool) (search : String → Bool)
    (chunks : Nat → String) (patternText : String) (timeout : Nat)
    (bufBefore : String) : CommandResult × String :=
  let _ := bufBefore
  if ¬ send writerIsSet writeOk then
    (⟨false, "", "Failed to send command"⟩, "")
  else
    let r := expectRun search chunks "" 0 timeout
    (⟨r.found, r.buf, if r.found then "" else "Pattern not found: " ++ patternText⟩, r.buf)

theorem expectRun_spec (search : String → Bool) (chunks : Nat → String) :
    ∀ (fuel e : Nat),
      (expectRun search chunks (bufAt chunks e) e fuel).buf
          = bufAt chunks (expectRun search chunks (bufAt chunks e) e fuel).elapsed
      ∧ e ≤ (expectRun search chunks (bufAt chunks e) e fuel).elapsed
      ∧ (expectRun search chunks (bufAt chunks e) e fuel).elapsed ≤ e + fuel
      ∧ ((expectRun search chunks (bufAt chunks e) e fuel).found = false →
          (expectRun search chunks (bufAt chunks e) e fuel).elapsed = e + fuel)
  | 0, e => by simp [expectRun]
  | fuel + 1, e => by
    have ih := expectRun_spec search chunks fuel (e + 1)
    simp only [expectRun]
    rw [show bufAt chunks e ++ chunks e = bufAt chunks (e + 1) from rfl]
    by_cases h : search (bufAt chunks (e + 1)) = true
    · simp [h]
    · simp only [Bool.not_eq_true] at h
      simp only [h, if_false, Bool.false_eq_true]
      refine ⟨ih.1, ?_, ?_, ?_⟩
      · exact le_trans (Nat.le_succ e) ih.2.1
      · omega
      · intro hf
        have := ih.2.2.2 hf
        omega

theorem expectRun_found_iff (search : String → Bool) (chunks : Nat → String) :
    ∀ (fuel e : Nat),
      (expectRun search chunks (bufAt chunks e) e fuel).found = true
        ↔ ∃ k, e < k ∧ k ≤ e + fuel ∧ search (bufAt chunks k) = true
  | 0, e => by
    simp only [expectRun]
    constructor
    · intro h; exact absurd h (by simp)
    · rintro ⟨k, hk1, hk2, _⟩; omega
  | fuel + 1, e => by
    have ih := expectRun_found_iff search chunks fuel (e + 1)
    simp only [expectRun]
    rw [show bufAt chunks e ++ chunks e = bufAt chunks (e + 1) from rfl]
    by_cases h : search (bufAt chunks (e + 1)) = true
    · simp only [h, if_true]
      exact iff_of_true trivial ⟨e + 1, by omega, by omega, h⟩
    · simp only [Bool.not_eq_true] at h
      simp only [h, if_false, Bool.false_eq_true, ih]
      constructor
      · rintro ⟨k, hk1, hk2, hk3⟩; exact ⟨k, by omega, by omega, hk3⟩
      · rintro ⟨k, hk1, hk2, hk3⟩
        refine ⟨k, ?_, by omega, hk3⟩
        rcases Nat.lt_or_ge (e + 1) k with h1 | h1
        · exact h1
        · exfalso
          have h2 : k = e + 1 := by omega
          rw [h2] at hk3
          rw [h] at hk3
          exact Bool.false_ne_true hk3

theorem expectRun_first_match (search : String → Bool) (chunks : Nat → String) :
    ∀ (fuel e : Nat),
      (expectRun search chunks (bufAt chunks e) e fuel).found = true →
        search (bufAt chunks (expectRun search chunks (bufAt chunks e) e fuel).elapsed) = true
        ∧ ∀ j, e < j → j < (expectRun search chunks (bufAt chunks e) e fuel).elapsed →
            search (bufAt chunks j) = false
  | 0, e => by simp [expectRun]
  | fuel + 1, e => by
    have ih := expectRun_first_match search chunks fuel (e + 1)
    simp only [expectRun]
    rw [show bufAt chunks e ++ chunks e = bufAt chunks (e + 1) from rfl]
    by_cases h : search (bufAt chunks (e + 1)) = true
    · simp only [h, if_true]
      exact fun _ => ⟨trivial, fun j hj1 hj2 => absurd hj2 (by omega)⟩
    · simp only [Bool.not_eq_true] at h
      simp only [h, if_false, Bool.false_eq_true]
      intro hf
      obtain ⟨h1, h2⟩ := ih hf
      refine ⟨h1, fun j hj1 hj2 => ?_⟩
      rcases Nat.lt_or_ge (e + 1) j with h3 | h3
      · exact h2 j h3 hj2
      · have : j = e + 1 := by omega
        rw [this]; exact h

/-- One `expect(pattern, timeout)` call on a freshly cleared buffer, for a
literal pattern matched case-insensitively. -/
def expectCall (pat : String) (chunks : Nat → String) (timeout : Nat) : ExpectResult :=
  expectRun (reSearchCI pat) chunks "" 0 timeout

/-- C1: for every command, pattern and timeout, `send_and_expect` first clears
the expect buffer, then sends; if the send fails it returns
`success = false` with the error message "Failed to send command", and
otherwise its `success` equals the outcome of the expect run on the cleared
buffer and its `output` is exactly the concatenation of the chunks drained
during the call (the whole conclusion is independent of `bufBefore`, the
buffer content before the call: the buffer is cleared first). -/
theorem C1_send_and_expect (writerIsSet writeOk : Bool) (search : String → Bool)
    (chunks : Nat → String) (patternText : String) (timeout : Nat) (bufBefore : String) :
    (send writerIsSet writeOk = false →
        send_and_expect writerIsSet writeOk search chunks patternText timeout bufBefore
          = (⟨false, "", "Failed to send command"⟩, ""))
    ∧ (send writerIsSet writeOk = true →
        (send_and_expect writerIsSet writeOk search chunks patternText timeout bufBefore).1.success
            = (expectRun search chunks "" 0 timeout).found
        ∧ (send_and_expect writerIsSet writeOk search chunks patternText timeout bufBefore).1.output
            = bufAt chunks (expectRun search chunks "" 0 timeout).elapsed
        ∧ (send_and_expect writerIsSet writeOk search chunks patternText timeout bufBefore).1.error
            = (if (expectRun search chunks "" 0 timeout).found then ""
                else "Pattern not found: " ++ patternText)) := by
  constructor
  · intro h
    simp [send_and_expect, h]
  · intro h
    have hb := (expectRun_spec search chunks timeout 0).1
    simp only [send_and_expect, h, not_true, if_neg, ite_false]
    refine ⟨trivial, ?_, trivial⟩
    exact hb

theorem C1_send_and_expect_witness :
    (send false true = false
      ∧ send_and_expect false true (reSearchCI "ok") (fun _ => "OK") "ok" 3 "stale"
          = (⟨false, "", "Failed to send command"⟩, ""))
    ∧ (send true true = true
      ∧ (send_and_expect true true (reSearchCI "ok") (fun _ => "OK") "ok" 3 "stale").1.success
          = (expectRun (reSearchCI "ok") (fun _ => "OK") "" 0 3).found) :=
  ⟨⟨by decide, (C1_send_and_expect false true (reSearchCI "ok") (fun _ => "OK") "ok" 3 "stale").1 (by decide)⟩,
   ⟨by decide,
    ((C1_send_and_expect true true (reSearchCI "ok") (fun _ => "OK") "ok" 3 "stale").2 (by decide)).1⟩⟩

/-- C2: `expect` polls the shared buffer once per fixed 0.1 s tick; on a
literal pattern it matches case-insensitively (the MULTILINE flag is inert for
a literal pattern); it is a total boolean function, so it never raises; it
returns `true` exactly when the pattern appears in the buffer within the tick
budget, and then `elapsed` is the first tick whose buffer matches ("as soon
as"); with no match it returns `false` after spending precisely the whole
configured budget, and consequently `send_and_expect` with a pattern that
never appears returns `success = false` instead of hanging. -/
theorem C2_expect_polls_until_timeout (pat : String) (chunks : Nat → String) (timeout : Nat) :
    (expectCall pat chunks timeout).elapsed ≤ timeout
    ∧ ((expectCall pat chunks timeout).found = true
        ↔ ∃ k, 1 ≤ k ∧ k ≤ timeout ∧ reSearchCI pat (bufAt chunks k) = true)
    ∧ ((expectCall pat chunks timeout).found = true →
        reSearchCI pat (bufAt chunks (expectCall pat chunks timeout).elapsed) = true
        ∧ ∀ j, 1 ≤ j → j < (expectCall pat chunks timeout).elapsed →
            reSearchCI pat (bufAt chunks j) = false)
    ∧ ((expectCall pat chunks timeout).found = false →
        (expectCall pat chunks timeout).elapsed = timeout)
    ∧ (∀ buf, reSearchCI pat (strUpper buf) = reSearchCI pat buf)
    ∧ ((∀ k, reSearchCI pat (bufAt chunks k) = false) →
        (send_and_expect true true (reSearchCI pat) chunks pat timeout "").1.success = false) := by
  have hspec := expectRun_spec (reSearchCI pat) chunks timeout 0
  have hiff := expectRun_found_iff (reSearchCI pat) chunks timeout 0
  have hfirst := expectRun_first_match (reSearchCI pat) chunks timeout 0
  refine ⟨?_, ?_, ?_, ?_, reSearchCI_strUpper pat, ?_⟩
  · simpa using hspec.2.2.1
  · rw [show (expectCall pat chunks timeout).found
        = (expectRun (reSearchCI pat) chunks (bufAt chunks 0) 0 timeout).found from rfl]
    rw [hiff]
    constructor
    · rintro ⟨k, h1, h2, h3⟩; exact ⟨k, by omega, by simpa using h2, h3⟩
    · rintro ⟨k, h1, h2, h3⟩; exact ⟨k, by omega, by simpa using h2, h3⟩
  · intro hf
    obtain ⟨ha, hb⟩ := hfirst hf
    exact ⟨ha, fun j hj1 hj2 => hb j (by omega) hj2⟩
  · intro hf
    simpa using hspec.2.2.2 hf
  · intro hnever
    have hfound : (expectCall pat chunks timeout).found = false := by
      rw [show (expectCall pat chunks timeout).found
          = (expectRun (reSearchCI pat) chunks (bufAt chunks 0) 0 timeout).found from rfl]
      by_contra hc
      simp only [Bool.not_eq_false] at hc
      obtain ⟨k, _, _, h3⟩ := hiff.mp hc
      rw [hnever k] at h3
      exact Bool.false_ne_true h3
    simp only [send_and_expect, send, if_true, not_true, ite_false]
    exact hfound

theorem C2_expect_polls_until_timeout_witness :
    (expectCall "login" (fun i => if i = 1 then "SDF LOGIN ready" else "") 5).elapsed ≤ 5
    ∧ ((expectCall "login" (fun i => if i = 1 then "SDF LOGIN ready" else "") 5).found = true
        ↔ ∃ k, 1 ≤ k ∧ k ≤ 5
            ∧ reSearchCI "login"
                (bufAt (fun i => if i = 1 then "SDF LOGIN ready" else "") k) = true) :=
  ⟨(C2_expect_polls_until_timeout "login" (fun i => if i = 1 then "SDF LOGIN ready" else "") 5).1,
   (C2_expect_polls_until_timeout "login" (fun i => if i = 1 then "SDF LOGIN ready" else "") 5).2.1⟩

/-- Connection-state fields touched by the reconnect path: `ConnectionState`
(lines 64-70) plus the `_connected`, `_in_shell`, `_in_com` flags of the
connection object. -/
structure ReconnectState where
  connected : Bool
  in_shell : Bool
  in_com : Bool
  last_room : String
  reconnect_count : Nat
  deriving Repr, DecidableEq

/-- AsyncSSHConnection.connect, lines 120-166, restricted to the modelled
fields: an already-connected session returns `True` unchanged; otherwise the
SSH handshake outcome is the oracle `ok`; success sets the connected flag and
increments `reconnect_count` (line 149); failure (timeout or exception,
caught inside `connect`) returns `False` with the state unchanged. -/
def connectStep (ok : Bool) (s : ReconnectState) : Bool × ReconnectState :=
  if s.connected then (true, s)
  else if ok then (true, { s with connected := true, reconnect_count := s.reconnect_count + 1 })
  else (false, s)

/-- COMChatConnection.enter_com, lines 484-506: connect if not connected,
invoke the shell if not in a shell (outcome oracle `invokeOk`), then
`send_and_expect("com", COM_MODE_PROMPT)`, whose outcome is abstracted by
`comOk`; on success the session is in COM mode with `last_room := room` (for
`room ≠ "lobby"` the subsequent `switch_room room` call sets
`last_room := room` again and returns `True`, line 529). -/
def enterComStep (connectOk invokeOk comOk : Bool) (room : String)
    (s : ReconnectState) : Bool × ReconnectState :=
  let c := connectStep connectOk s
  if ¬ c.1 then (false, c.2)
  else
    let sh := if c.2.in_shell then (true, c.2)
      else if invokeOk then (true, { c.2 with in_shell := true })
      else (false, c.2)
    if ¬ sh.1 then (false, sh.2)
    else if comOk then (true, { sh.2 with in_com := true, last_room := room })
    else (false, sh.2)

/-- Outcome of one reconnection attempt as seen by `_auto_reconnect` (lines
463-482): the SSH connect can fail, `invoke_shell` or COM-mode entry can
fail, the attempt can raise (the exception is caught by the `except` branch,
e.g. a cancelled sleep), or everything succeeds. -/
inductive AttemptOutcome
  | connectFail
  | shellFail
  | comFail
  | raised
  | ok
  deriving Repr, DecidableEq

/-- Body of one iteration of the `_auto_reconnect` retry loop:
`try: if await self.connect(): if await self.enter_com(self._state.last_room):
return True / except: log` — a raised exception is caught and the iteration
counts as failed. -/
def reconnectAttempt (o : AttemptOutcome) (s : ReconnectState) : Bool × ReconnectState :=
  match o with
  | .raised => (false, s)
  | _ =>
    let c := connectStep (decide (o ≠ AttemptOutcome.connectFail)) s
    if ¬ c.1 then (false, c.2)
    else enterComStep true (decide (o ≠ AttemptOutcome.shellFail))
      (decide (o = AttemptOutcome.ok)) c.2.last_room c.2

/-- Result of one `_auto_reconnect` call: return value, number of attempts
executed, the sequence of delays slept, and the final session state. -/
structure ReconnectRun where
  success : Bool
  attempts : Nat
  delays : List Nat
  final : ReconnectState
  deriving Repr, DecidableEq

/-- The `_auto_reconnect` retry loop, lines 469-479: `i` attempts already
made, `rem` attempts remaining out of `max_retries = 5`, `d` the current
`retry_delay`; after every failed attempt the loop sleeps `d` seconds
(recorded in `delays`) and sets `retry_delay = min(retry_delay * 2, 60)`. -/
def autoReconnectLoop (oracle : Nat → AttemptOutcome) :
    Nat → Nat → Nat → ReconnectState → ReconnectRun
  | i, 0, _, s => ⟨false, i, [], s⟩
  | i, rem + 1, d, s =>
    let a := reconnectAttempt (oracle i) s
    if a.1 then ⟨true, i + 1, [], a.2⟩
    else
      let r := autoReconnectLoop oracle (i + 1) rem (min (d * 2) 60) a.2
      ⟨r.success, r.attempts, d :: r.delays, r.final⟩

/-- COMChatConnection._auto_reconnect, lines 463-482: up to `max_retries = 5`
attempts starting from `retry_delay = 5`. -/
def autoReconnect (oracle : Nat → AttemptOutcome) (s : ReconnectState) : ReconnectRun :=
  autoReconnectLoop oracle 0 5 5 s

/-- Delay sequence produced by `n` consecutive failures starting from delay
`d` under `retry_delay = min(retry_delay * 2, 60)`. -/
def delaySeq : Nat → Nat → List Nat
  | _, 0 => []
  | d, n + 1 => d :: delaySeq (min (d * 2) 60) n

theorem reconnectAttempt_fst_of_ne_ok (o : AttemptOutcome) (s : ReconnectState)
    (h : o ≠ AttemptOutcome.ok) : (reconnectAttempt o s).1 = false := by
  cases o <;> simp_all [reconnectAttempt, connectStep, enterComStep] <;>
    split_ifs <;> simp_all

theorem autoReconnectLoop_all_fail (oracle : Nat → AttemptOutcome) :
    ∀ (rem i d : Nat) (s : ReconnectState), (∀ j, j < i + rem → oracle j ≠ AttemptOutcome.ok) →
      (autoReconnectLoop oracle i rem d s).success = false
      ∧ (autoReconnectLoop oracle i rem d s).attempts = i + rem
      ∧ (autoReconnectLoop oracle i rem d s).delays = delaySeq d rem
  | 0, i, d, s, _ => by simp [autoReconnectLoop, delaySeq]
  | rem + 1, i, d, s, h => by
    have hfst : (reconnectAttempt (oracle i) s).1 = false :=
      reconnectAttempt_fst_of_ne_ok _ _ (h i (by omega))
    have ih := autoReconnectLoop_all_fail oracle rem (i + 1) (min (d * 2) 60)
      (reconnectAttempt (oracle i) s).2 (fun j hj => h j (by omega))
    simp only [autoReconnectLoop, hfst, Bool.false_eq_true, if_false, delaySeq]
    refine ⟨ih.1, ?_, ?_⟩
    · rw [ih.2.1]; omega
    · rw [ih.2.2]

/-- C3: if every attempt's connect (or subsequent chat-mode re-entry) fails —
including attempts whose exception is caught by the `except` branch — the
supervisor returns permanent failure (`False`) after exactly
`max_retries = 5` attempts, sleeping the delays 5, 10, 20, 40, 60: starting
at the 5 s base, doubling after each failure and capped at 60 s, hence
non-decreasing; being a total function into `ReconnectRun`, it propagates no
exception. -/
theorem C3_reconnect_exhausts_after_five (oracle : Nat → AttemptOutcome)
    (s : ReconnectState) (h : ∀ i, i < 5 → oracle i ≠ AttemptOutcome.ok) :
    (autoReconnect oracle s).success = false
    ∧ (autoReconnect oracle s).attempts = 5
    ∧ (autoReconnect oracle s).delays = [5, 10, 20, 40, 60]
    ∧ (autoReconnect oracle s).delays.Chain' (· ≤ ·)
    ∧ ∀ d ∈ (autoReconnect oracle s).delays, d ≤ 60 := by
  have hall := autoReconnectLoop_all_fail oracle 5 0 5 s (fun j hj => h j (by omega))
  have hdel : (autoReconnect oracle s).delays = [5, 10, 20, 40, 60] := by
    rw [show autoReconnect oracle s = autoReconnectLoop oracle 0 5 5 s from rfl, hall.2.2]
    rfl
  refine ⟨hall.1, by simpa using hall.2.1, hdel, ?_, ?_⟩
  · rw [hdel]; norm_num [List.chain'_cons]
  · rw [hdel]; norm_num

theorem C3_reconnect_exhausts_after_five_witness :
    (∀ i, i < 5 →
      (fun j => if j % 2 = 0 then AttemptOutcome.connectFail else AttemptOutcome.raised) i
        ≠ AttemptOutcome.ok)
    ∧ ((autoReconnect
          (fun j => if j % 2 = 0 then AttemptOutcome.connectFail else AttemptOutcome.raised)
          ⟨false, false, false, "hackers", 0⟩).success = false
      ∧ (autoReconnect
          (fun j => if j % 2 = 0 then AttemptOutcome.connectFail else AttemptOutcome.raised)
          ⟨false, false, false, "hackers", 0⟩).attempts = 5
      ∧ (autoReconnect
          (fun j => if j % 2 = 0 then AttemptOutcome.connectFail else AttemptOutcome.raised)
          ⟨false, false, false, "hackers", 0⟩).delays = [5, 10, 20, 40, 60]
      ∧ (autoReconnect
          (fun j => if j % 2 = 0 then AttemptOutcome.connectFail else AttemptOutcome.raised)
          ⟨false, false, false, "hackers", 0⟩).delays.Chain' (· ≤ ·)
      ∧ ∀ d ∈ (autoReconnect
          (fun j => if j % 2 = 0 then AttemptOutcome.connectFail else AttemptOutcome.raised)
          ⟨false, false, false, "hackers", 0⟩).delays, d ≤ 60) :=
  ⟨by decide,
   C3_reconnect_exhausts_after_five
     (fun j => if j % 2 = 0 then AttemptOutcome.connectFail else AttemptOutcome.raised)
     ⟨false, false, false, "hackers", 0⟩ (by decide)⟩

theorem reconnectAttempt_connectFail (s : ReconnectState) (h : s.connected = false) :
    reconnectAttempt AttemptOutcome.connectFail s = (false, s) := by
  simp [reconnectAttempt, connectStep, h]

theorem reconnectAttempt_ok (s : ReconnectState) (h1 : s.connected = false)
    (h2 : s.in_shell = false) :
    reconnectAttempt AttemptOutcome.ok s
      = (true, ⟨true, true, true, s.last_room, s.reconnect_count + 1⟩) := by
  simp [reconnectAttempt, connectStep, enterComStep, h1, h2]

theorem autoReconnectLoop_fail_then_ok (oracle : Nat → AttemptOutcome) (k : Nat) :
    ∀ (i rem d : Nat) (s : ReconnectState), k < rem →
      (∀ j, j < k → oracle (i + j) = AttemptOutcome.connectFail) →
      oracle (i + k) = AttemptOutcome.ok →
      s.connected = false → s.in_shell = false →
      autoReconnectLoop oracle i rem d s
        = ⟨true, i + k + 1, delaySeq d k,
            ⟨true, true, true, s.last_room, s.reconnect_count + 1⟩⟩ := by
  induction k with
  | zero =>
    intro i rem d s hrem hfail hok h1 h2
    match rem, hrem with
    | rem + 1, _ =>
      have ha : reconnectAttempt (oracle i) s
          = (true, ⟨true, true, true, s.last_room, s.reconnect_count + 1⟩) := by
        rw [show oracle i = AttemptOutcome.ok from hok]
        exact reconnectAttempt_ok s h1 h2
      simp [autoReconnectLoop, ha, delaySeq]
  | succ k ih =>
    intro i rem d s hrem hfail hok h1 h2
    match rem, hrem with
    | rem + 1, _ =>
      have ha : reconnectAttempt (oracle i) s = (false, s) := by
        rw [show oracle i = AttemptOutcome.connectFail from by
          simpa using hfail 0 (by omega)]
        exact reconnectAttempt_connectFail s h1
      have ihr := ih (i + 1) rem (min (d * 2) 60) s (by omega)
        (fun j hj => by
          have := hfail (j + 1) (by omega)
          simpa [Nat.add_assoc, Nat.add_comm 1 j] using this)
        (by
          have := hok
          simpa [Nat.add_assoc, Nat.add_comm 1 k] using this) h1 h2
      simp only [autoReconnectLoop, ha, Bool.false_eq_true, if_false, ihr, delaySeq]
      rw [show i + 1 + k + 1 = i + (k + 1) + 1 from by omega]

/-- C4 counterexample: with a connect that succeeds on the first attempt and
a pre-disconnect `reconnect_count` of 3, the counter after the successful
reconnect is 4 — it is not reset. -/
theorem C4_reconnect_count_not_reset :
    (autoReconnect (fun _ => AttemptOutcome.ok)
        ⟨false, false, false, "hackers", 3⟩).success = true
    ∧ (autoReconnect (fun _ => AttemptOutcome.ok)
        ⟨false, false, false, "hackers", 3⟩).final.reconnect_count = 4
    ∧ (4 : Nat) ≠ 0 := by
  refine ⟨?_, ?_, by decide⟩ <;> decide

/-- C4 (amended): if connect fails `N` times and then the `(N+1)`-st attempt
fully succeeds, `N < 5`, the loop ends on that first successful attempt
(`N + 1` attempts, only the first `N` backoff delays slept), the session ends
connected, in COM mode, with the room restored to the pre-disconnect
`last_room` — and the reconnect counter in `ConnectionState` is incremented
by one by the successful connect (line 149), not reset. -/
theorem C4_reconnect_success_restores_room (oracle : Nat → AttemptOutcome)
    (s : ReconnectState) (N : Nat) (hN : N < 5)
    (hfail : ∀ j, j < N → oracle j = AttemptOutcome.connectFail)
    (hok : oracle N = AttemptOutcome.ok)
    (h1 : s.connected = false) (h2 : s.in_shell = false) :
    autoReconnect oracle s
      = ⟨true, N + 1, delaySeq 5 N,
          ⟨true, true, true, s.last_room, s.reconnect_count + 1⟩⟩ := by
  have := autoReconnectLoop_fail_then_ok oracle N 0 5 5 s hN
    (fun j hj => by simpa using hfail j hj) (by simpa using hok) h1 h2
  simpa [autoReconnect] using this

theorem C4_reconnect_success_restores_room_witness :
    ((2 : Nat) < 5
      ∧ (∀ j, j < 2 →
          (fun i => if i < 2 then AttemptOutcome.connectFail else AttemptOutcome.ok) j
            = AttemptOutcome.connectFail)
      ∧ (fun i => if i < 2 then AttemptOutcome.connectFail else AttemptOutcome.ok) 2
          = AttemptOutcome.ok)
    ∧ autoReconnect (fun i => if i < 2 then AttemptOutcome.connectFail else AttemptOutcome.ok)
        ⟨false, false, false, "hackers", 0⟩
      = ⟨true, 3, delaySeq 5 2, ⟨true, true, true, "hackers", 1⟩⟩ :=
  ⟨⟨by decide, by decide, by decide⟩,
   C4_reconnect_success_restores_room
     (fun i => if i < 2 then AttemptOutcome.connectFail else AttemptOutcome.ok)
     ⟨false, false, false, "hackers", 0⟩ 2 (by decide) (by decide) (by decide) rfl rfl⟩

/-- Connection fields read by the COM chat operations of `COMChatConnection`:
the `_in_com` flag, presence of `self._writer`, and
`ConnectionState.last_room`. -/
structure ChatState where
  in_com : Bool
  writerIsSet : Bool
  last_room : String
  deriving Repr, DecidableEq

/-- COMChatConnection.switch_room, lines 520-531: when not in COM mode it
warns and returns `False`; otherwise it sends `j room` *ignoring the send
outcome*, sleeps 1.5 s, drains output without inspecting it,
unconditionally sets `last_room := room` and returns `True`.  No expect
pattern is awaited. -/
def switch_room (writeOk : Bool) (s : ChatState) (room : String) : Bool × ChatState :=
  if ¬ s.in_com then (false, s)
  else
    let _ := send s.writerIsSet writeOk
    (true, { s with last_room := room })

/-- COMChatConnection.send_message, lines 533-538: returns `False` when not
in COM mode (it does not enter chat mode); otherwise returns the outcome of
sending the message line. -/
def comchat_send_message (writeOk : Bool) (s : ChatState) : Bool × ChatState :=
  if ¬ s.in_com then (false, s)
  else (send s.writerIsSet writeOk, s)

/-- COMChatConnection.send_private_message, lines 540-545: returns `False`
when not in COM mode (no chat-mode entry); otherwise sends
`p user message`. -/
def comchat_send_private_message (writeOk : Bool) (s : ChatState) : Bool × ChatState :=
  if ¬ s.in_com then (false, s)
  else (send s.writerIsSet writeOk, s)

/-- COMChatConnection.get_online_users, lines 547-548: directly calls
`send_and_expect("w", COM_PROMPT, 3.0)` (30 polling ticks) with no chat-mode
check at all. -/
def comchat_get_online_users (writeOk : Bool) (search : String → Bool)
    (chunks : Nat → String) (bufBefore : String) (s : ChatState) :
    CommandResult × ChatState :=
  ((send_and_expect s.writerIsSet writeOk search chunks "[\\$#>]\\s*$" 30 bufBefore).1, s)

/-- COMClient protocol states, `src/sdf/com.py` lines 14-18. -/
inductive COMState
  | disconnected
  | connecting
  | connected
  | in_com
  deriving Repr, DecidableEq

/-- COMClient fields used by the chat operations, `src/sdf/com.py` lines
53-69: protocol state, current room, configured default room, and whether a
send callback is registered.  A `sendRaises` oracle models the send callback
raising. -/
structure ClientState where
  state : COMState
  current_room : String
  default_room : String
  hasSendCallback : Bool
  deriving Repr, DecidableEq

/-- COMClient.enter_com, com.py lines 89-108: already in COM mode returns
True; with no send callback returns False; otherwise sends "com" (plus
`g current_room` when the remembered room differs from the default) and
marks the state IN_COM; an exception from the sends is caught and yields
False with the state unchanged (the state assignment comes after the
sends). -/
def client_enter_com (sendRaises : Bool) (c : ClientState) : Bool × ClientState :=
  if c.state = COMState.in_com then (true, c)
  else if ¬ c.hasSendCallback then (false, c)
  else if sendRaises then (false, c)
  else (true, { c with state := COMState.in_com })

/-- COMClient.send_message, com.py lines 122-137: when not in COM mode it
first enters COM mode (failing only if that fails); then sends the message,
an exception yielding False. -/
def client_send_message (sendRaises : Bool) (c : ClientState) : Bool × ClientState :=
  let e := if c.state ≠ COMState.in_com then client_enter_com sendRaises c else (true, c)
  if ¬ e.1 then (false, e.2)
  else if sendRaises then (false, e.2)
  else (true, e.2)

/-- COMClient.switch_room, com.py lines 139-151: auto-enters COM mode, then
sends `g room` and updates `current_room`. -/
def client_switch_room (sendRaises : Bool) (c : ClientState) (room : String) :
    Bool × ClientState :=
  let e := if c.state ≠ COMState.in_com then client_enter_com sendRaises c else (true, c)
  if ¬ e.1 then (false, e.2)
  else if sendRaises then (false, e.2)
  else (true, { e.2 with current_room := room })

/-- COMClient.send_private, com.py lines 153-170: auto-enters COM mode, then
sends `s user message`. -/
def client_send_private (sendRaises : Bool) (c : ClientState) : Bool × ClientState :=
  let e := if c.state ≠ COMState.in_com then client_enter_com sendRaises c else (true, c)
  if ¬ e.1 then (false, e.2)
  else if sendRaises then (false, e.2)
  else (true, e.2)

/-- COMClient._com_command, com.py lines 181-191, used by `who_online` ("w")
and `list_rooms` ("l"): auto-enters COM mode, then sends the one-letter
command. -/
def client_com_command (sendRaises : Bool) (c : ClientState) : Bool × ClientState :=
  let e := if c.state ≠ COMState.in_com then client_enter_com sendRaises c else (true, c)
  if ¬ e.1 then (false, e.2)
  else if sendRaises then (false, e.2)
  else (true, e.2)

/-- C5 counterexample: COMChatConnection.send_message, called while not in
chat mode (with a writer present and a working write), fails with `False`
and does not enter chat mode — it has no auto-recovery. -/
theorem C5_comchat_no_auto_entry :
    comchat_send_message true ⟨false, true, "lobby"⟩ = (false, ⟨false, true, "lobby"⟩)
    ∧ (comchat_send_message true ⟨false, true, "lobby"⟩).2.in_com = false
    ∧ switch_room true ⟨false, true, "lobby"⟩ "hackers"
        = (false, ⟨false, true, "lobby"⟩) := by
  refine ⟨?_, ?_, ?_⟩ <;> decide

/-- C5 (amended): chat-mode auto-recovery holds for COMClient
(src/sdf/com.py) — its send_message, switch_room, send_private and the w/l
list commands enter chat mode first when not in it, then proceed — but not
for COMChatConnection (src/connection_manager.py): its send_message,
send_private_message and switch_room return `False` without entering chat
mode, and its list users/rooms commands send with no chat-mode check at
all. -/
theorem C5_auto_entry_client_only (c : ClientState) (room : String)
    (h1 : c.state ≠ COMState.in_com) (h2 : c.hasSendCallback = true) :
    (client_send_message false c = (true, { c with state := COMState.in_com })
      ∧ client_switch_room false c room
          = (true, { c with state := COMState.in_com, current_room := room })
      ∧ client_send_private false c = (true, { c with state := COMState.in_com })
      ∧ client_com_command false c = (true, { c with state := COMState.in_com }))
    ∧ (∀ (writeOk : Bool) (s : ChatState), s.in_com = false →
        comchat_send_message writeOk s = (false, s)
        ∧ comchat_send_private_message writeOk s = (false, s)
        ∧ switch_room writeOk s room = (false, s))
    ∧ (∀ (writeOk : Bool) (search : String → Bool) (chunks : Nat → String)
          (b : String) (w : Bool) (lr : String),
        (comchat_get_online_users writeOk search chunks b ⟨false, w, lr⟩).1
          = (comchat_get_online_users writeOk search chunks b ⟨true, w, lr⟩).1) := by
  refine ⟨?_, ?_, ?_⟩
  · have he : client_enter_com false c = (true, { c with state := COMState.in_com }) := by
      simp [client_enter_com, if_neg h1, h2]
    refine ⟨?_, ?_, ?_, ?_⟩ <;>
      simp [client_send_message, client_switch_room, client_send_private,
        client_com_command, h1, he]
  · intro writeOk s hs
    refine ⟨?_, ?_, ?_⟩ <;>
      simp [comchat_send_message, comchat_send_private_message, switch_room, hs]
  · intro writeOk search chunks b w lr
    rfl

theorem C5_auto_entry_client_only_witness :
    ((ClientState.mk COMState.connected "lounge" "lounge" true).state ≠ COMState.in_com
      ∧ (ClientState.mk COMState.connected "lounge" "lounge" true).hasSendCallback = true)
    ∧ client_send_message false (ClientState.mk COMState.connected "lounge" "lounge" true)
        = (true, ClientState.mk COMState.in_com "lounge" "lounge" true) :=
  ⟨⟨by decide, by decide⟩,
   ((C5_auto_entry_client_only (ClientState.mk COMState.connected "lounge" "lounge" true)
      "hackers" (by decide) (by decide)).1).1⟩

/-- C10: for every room name, switch_room called while in chat mode returns
True and unconditionally sets `last_room` to that room, for every send
outcome (even a failed write) and with no expect on the remote output — so
the reported success does not imply the remote chat program joined the
room. -/
theorem C10_switch_room_unconditional (writeOk : Bool) (s : ChatState) (room : String)
    (h : s.in_com = true) :
    switch_room writeOk s room = (true, { s with last_room := room }) := by
  simp [switch_room, h]

theorem C10_switch_room_unconditional_witness :
    (ChatState.mk true false "lobby").in_com = true
    ∧ switch_room false (ChatState.mk true false "lobby") "hackers"
        = (true, ChatState.mk true false "hackers") :=
  ⟨rfl, C10_switch_room_unconditional false (ChatState.mk true false "lobby") "hackers" rfl⟩

/-- AsyncSSHConnection fields set up by invoke_shell: connected and shell
flags, the identity of the pty process (processes numbered by creation
order via `nextPid`), and the screen emulator represented by the byte
stream fed into it since its creation (a freshly built pyte Screen/Stream
pair has received exactly the initial read). -/
structure ShellState where
  connected : Bool
  in_shell : Bool
  process : Option Nat
  nextPid : Nat
  screenFeed : Option String
  deriving Repr, DecidableEq

/-- AsyncSSHConnection.invoke_shell, lines 266-293: fails when not
connected; otherwise — with no check of `_in_shell` — creates a new pty
process, rewires stdin/stdout to it, builds a fresh pyte Screen and Stream,
performs the initial 0.5 s read (feeding `initialRead` into the fresh
emulator), sets the shell flag and returns True.  An exception in the `try`
block (`createOk = false`) is caught and yields False (modelled as leaving
the fields unchanged). -/
def invoke_shell (createOk : Bool) (initialRead : String) (s : ShellState) :
    Bool × ShellState :=
  if ¬ s.connected then (false, s)
  else if ¬ createOk then (false, s)
  else
    (true, { s with
      process := some s.nextPid
      nextPid := s.nextPid + 1
      screenFeed := some initialRead
      in_shell := true })

/-- C6 counterexample: calling invoke_shell while the shell is already
active (process 0 live, emulator already fed "MOTD") returns success but is
not a no-op — the pty process and the screen emulator are replaced. -/
theorem C6_invoke_shell_not_idempotent :
    (invoke_shell true "" ⟨true, true, some 0, 1, some "MOTD"⟩).1 = true
    ∧ (invoke_shell true "" ⟨true, true, some 0, 1, some "MOTD"⟩).2
        ≠ ⟨true, true, some 0, 1, some "MOTD"⟩
    ∧ (invoke_shell true "" ⟨true, true, some 0, 1, some "MOTD"⟩).2.process ≠ some 0
    ∧ (invoke_shell true "" ⟨true, true, some 0, 1, some "MOTD"⟩).2.screenFeed
        ≠ some "MOTD" := by
  refine ⟨?_, ?_, ?_, ?_⟩ <;> decide

/-- C6 (amended): invoke_shell on a connected session returns success
whenever process creation succeeds — also when the shell is already active —
but the second call is not a no-op: it replaces the pseudo-terminal process
with a freshly created one and resets the screen emulator and expect
wiring. -/
theorem C6_invoke_shell_replaces (r : String) (s : ShellState)
    (h1 : s.connected = true)
    (h2 : Option.all (fun p => decide (p < s.nextPid)) s.process = true) :
    invoke_shell true r s
      = (true, { s with process := some s.nextPid,
                        nextPid := s.nextPid + 1,
                        screenFeed := some r,
                        in_shell := true })
    ∧ (invoke_shell true r s).2.process ≠ s.process := by
  have heq : invoke_shell true r s
      = (true, { s with process := some s.nextPid,
                        nextPid := s.nextPid + 1,
                        screenFeed := some r,
                        in_shell := true }) := by
    simp [invoke_shell, h1]
  refine ⟨heq, ?_⟩
  rw [heq]
  cases hp : s.process with
  | none => simp
  | some p =>
    rw [hp] at h2
    simp only [Option.all_some, decide_eq_true_eq] at h2
    simp only [Prod.snd]
    intro hcontra
    have : s.nextPid = p := by
      simpa using hcontra
    omega

theorem C6_invoke_shell_replaces_witness :
    ((ShellState.mk true true (some 0) 1 (some "MOTD")).connected = true
      ∧ Option.all (fun p => decide (p < 1)) (some 0) = true)
    ∧ invoke_shell true "" (ShellState.mk true true (some 0) 1 (some "MOTD"))
        = (true, ShellState.mk true true (some 1) 2 (some ""))
    ∧ (invoke_shell true "" (ShellState.mk true true (some 0) 1 (some "MOTD"))).2.process
        ≠ (ShellState.mk true true (some 0) 1 (some "MOTD")).process :=
  ⟨⟨rfl, by decide⟩,
   (C6_invoke_shell_replaces "" (ShellState.mk true true (some 0) 1 (some "MOTD"))
      rfl (by decide)).1,
   (C6_invoke_shell_replaces "" (ShellState.mk true true (some 0) 1 (some "MOTD"))
      rfl (by decide)).2⟩

/-- The idle-relevant fields of ConnectionState: last-activity timestamp and
the "disconnect already notified" flag (lines 66, 70).  Timestamps are
naturals (seconds). -/
structure IdleState where
  last_activity : Nat
  disconnect_notified : Bool
  deriving Repr, DecidableEq

/-- One iteration of AsyncSSHConnection._idle_check_loop (lines 233-248),
run at clock value `now`: when the elapsed idle time reaches the configured
`idle_timeout` and the notified flag is clear, set the flag and invoke the
disconnect-notification callback (the returned Bool reports the
invocation); otherwise do nothing.  The loop itself is started only for
non-persistent sessions (line 154-155). -/
def idleCheck (idle_timeout : Nat) (s : IdleState) (now : Nat) : IdleState × Bool :=
  if idle_timeout ≤ now - s.last_activity then
    if s.disconnect_notified then (s, false)
    else ({ s with disconnect_notified := true }, true)
  else (s, false)

/-- AsyncSSHConnection.update_activity, lines 262-264: records activity at
clock value `now` and clears the notified flag — the only place the flag is
reset. -/
def update_activity (_s : IdleState) (now : Nat) : IdleState :=
  ⟨now, false⟩

/-- A run of idle checks (one per 60 s loop iteration, at the given clock
values) with no intervening activity; returns the final state and the
number of notifications fired. -/
def idleChecks (idle_timeout : Nat) (s : IdleState) : List Nat → IdleState × Nat
  | [] => (s, 0)
  | t :: ts =>
    let c := idleCheck idle_timeout s t
    let r := idleChecks idle_timeout c.1 ts
    (r.1, (if c.2 then 1 else 0) + r.2)

theorem idleChecks_notified (T : Nat) :
    ∀ (ts : List Nat) (s : IdleState), s.disconnect_notified = true →
      idleChecks T s ts = (s, 0)
  | [], s, _ => rfl
  | t :: ts, s, h => by
    have hc : idleCheck T s t = (s, false) := by
      simp [idleCheck, h]
    simp only [idleChecks, hc]
    rw [idleChecks_notified T ts s h]
    simp

theorem idleChecks_count (T : Nat) :
    ∀ (ts : List Nat) (la : Nat),
      (idleChecks T ⟨la, false⟩ ts).2
        = if ts.any (fun t => decide (T ≤ t - la)) then 1 else 0
  | [], la => rfl
  | t :: ts, la => by
    by_cases h : T ≤ t - la
    · have hc : idleCheck T ⟨la, false⟩ t = (⟨la, true⟩, true) := by
        simp [idleCheck, h]
      simp only [idleChecks, hc]
      rw [idleChecks_notified T ts ⟨la, true⟩ rfl]
      simp [h]
    · have hc : idleCheck T ⟨la, false⟩ t = (⟨la, false⟩, false) := by
        simp [idleCheck, h]
      simp only [idleChecks, hc]
      rw [idleChecks_count T ts la]
      simp [h]

/-- C8: for a (non-persistent) session's idle loop, starting with the
notified flag clear and with no intervening activity, the number of
disconnect notifications fired over any sequence of checks is exactly one
when some check happens after the idle threshold was crossed, and zero
otherwise (in particular never two); a check made while the flag is set
fires nothing and leaves the state unchanged; and only update_activity
resets the flag (recording the new activity time). -/
theorem C8_idle_notification_once (T la : Nat) (ts : List Nat) :
    ((idleChecks T ⟨la, false⟩ ts).2
        = if ts.any (fun t => decide (T ≤ t - la)) then 1 else 0)
    ∧ (∀ (s : IdleState) (now : Nat), s.disconnect_notified = true →
        idleCheck T s now = (s, false))
    ∧ (∀ (s : IdleState) (now : Nat),
        (idleCheck T s now).1.disconnect_notified
          = (s.disconnect_notified || decide (T ≤ now - s.last_activity)))
    ∧ (∀ (s : IdleState) (now : Nat),
        update_activity s now = ⟨now, false⟩) := by
  refine ⟨idleChecks_count T ts la, ?_, ?_, fun s now => rfl⟩
  · intro s now h
    simp [idleCheck, h]
  · intro s now
    by_cases h : T ≤ now - s.last_activity
    · cases hn : s.disconnect_notified <;> simp [idleCheck, h, hn]
    · cases hn : s.disconnect_notified <;> simp [idleCheck, h, hn]

theorem C8_idle_notification_once_witness :
    (idleChecks 10 ⟨0, false⟩ [5, 12, 70]).2
      = if [5, 12, 70].any (fun t => decide (10 ≤ t - 0)) then 1 else 0 :=
  (C8_idle_notification_once 10 0 [5, 12, 70]).1

/-- Python str.strip on a character list (both ends, Python whitespace). -/
def pyStrip (l : List Char) : List Char :=
  ((l.dropWhile isPyWs).reverse.dropWhile isPyWs).reverse

/-- Python str.split with an explicit separator character
(`screen.split('\n')`, line 614). -/
def splitOnChar (sep : Char) : List Char → List (List Char)
  | [] => [[]]
  | c :: cs =>
    let r := splitOnChar sep cs
    if c == sep then [] :: r
    else
      match r with
      | [] => [[c]]
      | g :: gs => (c :: g) :: gs

/-- Greedy `\s*(.+)` tail shared by the three message regexes: with a
nonempty remainder the whitespace star consumes as much as it can while
leaving at least one character for the dot-plus group (split lines contain
no newline, so `.` matches every remaining character; on an all-whitespace
remainder backtracking leaves exactly the last character). -/
def wsThenRest (after : List Char) : Option (List Char) :=
  if after.isEmpty then none
  else
    let t := after.dropWhile isPyWs
    if t.isEmpty then some (after.drop (after.length - 1)) else some t

/-- re.match of `\[([^\]]+)\]\s*(.+)` (line 620): a nonempty bracketed
sender at the start of the line, then the message body.  `[^\]]+` cannot
contain `]`, so the greedy reading up to the first `]` is exact. -/
def matchBracket (line : List Char) : Option (List Char × List Char) :=
  match line with
  | '[' :: rest =>
    let g1 := rest.takeWhile (fun c => c != ']')
    if g1.isEmpty then none
    else
      match rest.drop g1.length with
      | ']' :: after =>
        match wsThenRest after with
        | some g2 => some (g1, g2)
        | none => none
      | _ => none
  | _ => none

/-- re.match of `<([^>]+)>\s*(.+)` (line 621). -/
def matchAngle (line : List Char) : Option (List Char × List Char) :=
  match line with
  | '<' :: rest =>
    let g1 := rest.takeWhile (fun c => c != '>')
    if g1.isEmpty then none
    else
      match rest.drop g1.length with
      | '>' :: after =>
        match wsThenRest after with
        | some g2 => some (g1, g2)
        | none => none
      | _ => none
  | _ => none

/-- Character class `[a-zA-Z0-9_@]` of the colon pattern (line 622). -/
def isNameChar (c : Char) : Bool :=
  c.isAlpha || c.isDigit || c == '_' || c == '@'

/-- re.match of `([a-zA-Z0-9_@]+)\s*[:：]\s*(.+)` (line 622): a name
character is neither whitespace nor a colon, so regex backtracking cannot
rescue a failed colon lookup and the greedy reading is exact. -/
def matchColon (line : List Char) : Option (List Char × List Char) :=
  let g1 := line.takeWhile isNameChar
  if g1.isEmpty then none
  else
    match (line.drop g1.length).dropWhile isPyWs with
    | c :: after =>
      if c == ':' || c == '：' then
        match wsThenRest after with
        | some g2 => some (g1, g2)
        | none => none
      else none
    | [] => none

/-- A chat message extracted by _parse_messages, lines 637-643 (the
wall-clock timestamp field is not modelled). -/
structure ParsedMsg where
  sender : String
  content : String
  room : String
  raw : String
  deriving Repr, DecidableEq

/-- Noise-label filter `sender.upper() in ["TIP", "SYSTEM"]` (line 632). -/
def isNoiseSender (sender : String) : Bool :=
  strUpper sender == "TIP" || strUpper sender == "SYSTEM"

/-- Status-line filter `sender.lower() in ["alignment", "strength",
"dexterity"]` (line 634). -/
def isStatSender (sender : String) : Bool :=
  strLower sender == "alignment" || strLower sender == "strength"
    || strLower sender == "dexterity"

/-- The per-line pattern loop of _parse_messages (lines 619-644): patterns
are tried in order; on a match, a blank group or a self-authored line ends
the loop without a message (`break`), a noise/status sender falls through to
the next pattern (`continue`), and any other match yields the message and
ends the loop. -/
def patternLoop (username room line : String) :
    List (List Char → Option (List Char × List Char)) → Option ParsedMsg
  | [] => none
  | p :: ps =>
    match p line.data with
    | none => patternLoop username room line ps
    | some (g1, g2) =>
      let sender := String.mk (pyStrip g1)
      let content := String.mk (pyStrip g2)
      if sender ≠ "" ∧ content ≠ "" ∧ sender ≠ username then
        if isNoiseSender sender then patternLoop username room line ps
        else if isStatSender sender then patternLoop username room line ps
        else some ⟨sender, content, room, line⟩
      else none

/-- One line of _parse_messages: strip the rendered line, skip it when
blank, then run the ordered pattern list (bracketed name, angle-bracket
name, colon-separated name). -/
def parseLine (username room : String) (rawLine : List Char) : Option ParsedMsg :=
  let line := String.mk (pyStrip rawLine)
  if line = "" then none
  else patternLoop username room line [matchBracket, matchAngle, matchColon]

/-- COMChatConnection._parse_messages, lines 610-646: split the rendered
screen text into lines and extract at most one message per line. -/
def parseMessages (username room screen : String) : List ParsedMsg :=
  (splitOnChar '\n' screen.data).filterMap (parseLine username room)

/-- Fingerprint used by the monitor dedup cache (line 587):
`sender + ":" + content[:30]`. -/
def fingerprint (m : ParsedMsg) : String :=
  m.sender ++ ":" ++ String.mk (m.content.data.take 30)

/-- One message-dispatch step of _monitor_loop (lines 586-600): an unseen
fingerprint is added to the recently-seen set (whose arbitrary-element
`set.pop()` eviction once the set exceeds 100 entries is the oracle
`evict`) and the message is dispatched (`true`); an already-seen
fingerprint is dropped. -/
def monitorStep (evict : List String → List String) (seen : List String)
    (m : ParsedMsg) : List String × Bool :=
  let key := fingerprint m
  if seen.contains key then (seen, false)
  else
    let seen2 := key :: seen
    (if seen2.length > 100 then evict seen2 else seen2, true)

theorem parseLine_bracket_example (username room : String) (hu : username ≠ "alice") :
    parseLine username room ("[alice] hello there".data)
      = some ⟨"alice", "hello there", room, "[alice] hello there"⟩ := by
  have hstrip : String.mk (pyStrip ("[alice] hello there".data))
      = "[alice] hello there" := by decide
  have hmb : matchBracket ("[alice] hello there".data)
      = some ("alice".data, "hello there".data) := by decide
  have hs1 : String.mk (pyStrip ("alice".data)) = "alice" := by decide
  have hs2 : String.mk (pyStrip ("hello there".data)) = "hello there" := by decide
  simp only [parseLine, hstrip]
  rw [if_neg (by decide : ¬("[alice] hello there" : String) = "")]
  simp only [patternLoop, hmb, hs1, hs2]
  rw [if_pos ⟨by decide, by decide, Ne.symm hu⟩]
  rw [show isNoiseSender "alice" = false from by decide]
  rw [show isStatSender "alice" = false from by decide]
  simp

theorem parseLine_tip_example (username room : String) :
    parseLine username room ("TIP: welcome".data) = none := by
  have hstrip : String.mk (pyStrip ("TIP: welcome".data)) = "TIP: welcome" := by decide
  have hmb : matchBracket ("TIP: welcome".data) = none := by decide
  have hma : matchAngle ("TIP: welcome".data) = none := by decide
  have hmc : matchColon ("TIP: welcome".data)
      = some ("TIP".data, "welcome".data) := by decide
  simp only [parseLine, hstrip]
  rw [if_neg (by decide : ¬("TIP: welcome" : String) = "")]
  simp only [patternLoop, hmb, hma, hmc]
  have hsT : String.mk (pyStrip ("TIP".data)) = "TIP" := by decide
  have hsW : String.mk (pyStrip ("welcome".data)) = "welcome" := by decide
  simp only [hsT, hsW]
  by_cases hTu : ("TIP" : String) = username
  · rw [if_neg (fun hcon => hcon.2.2 hTu)]
  · rw [if_pos ⟨by decide, by decide, hTu⟩]
    rw [show isNoiseSender "TIP" = true from by decide]
    simp

/-- C7: on rendered screen lines, `"[alice] hello there"` yields exactly one
message with sender "alice" and content "hello there" (for a local user
other than alice); `"TIP: welcome"` yields no message (noise-sender
filter, whichever the local user is); and a second occurrence of a
fingerprint still present in the bounded recently-seen cache is not
dispatched — only the first occurrence is (the cache small enough that the
over-capacity eviction oracle is not consulted). -/
theorem C7_message_extractor (username room : String) (hu : username ≠ "alice") :
    parseMessages username room "[alice] hello there"
      = [⟨"alice", "hello there", room, "[alice] hello there"⟩]
    ∧ parseMessages username room "TIP: welcome" = []
    ∧ (∀ (evict : List String → List String) (seen : List String) (m : ParsedMsg),
        seen.contains (fingerprint m) = false → seen.length ≤ 99 →
          monitorStep evict seen m = (fingerprint m :: seen, true)
          ∧ monitorStep evict (fingerprint m :: seen) m
              = (fingerprint m :: seen, false)) := by
  refine ⟨?_, ?_, ?_⟩
  · have hsplit : splitOnChar '\n' ("[alice] hello there".data)
        = [("[alice] hello there".data)] := by decide
    unfold parseMessages
    rw [hsplit]
    simp only [List.filterMap_cons, List.filterMap_nil,
      parseLine_bracket_example username room hu]
  · have hsplit : splitOnChar '\n' ("TIP: welcome".data)
        = [("TIP: welcome".data)] := by decide
    unfold parseMessages
    rw [hsplit]
    simp only [List.filterMap_cons, List.filterMap_nil,
      parseLine_tip_example username room]
  · intro evict seen m hcontains hlen
    constructor
    · simp only [monitorStep, hcontains, Bool.false_eq_true, if_false]
      rw [if_neg (by simp only [List.length_cons]; omega)]
    · simp only [monitorStep, List.contains_cons, beq_self_eq_true, Bool.true_or, if_true]

theorem C7_message_extractor_witness :
    ("sdfuser" : String) ≠ "alice"
    ∧ parseMessages "sdfuser" "lobby" "[alice] hello there"
        = [⟨"alice", "hello there", "lobby", "[alice] hello there"⟩]
    ∧ parseMessages "sdfuser" "lobby" "TIP: welcome" = []
    ∧ ([] : List String).contains
        (fingerprint ⟨"alice", "hello there", "lobby", "[alice] hello there"⟩) = false
    ∧ monitorStep id []
        ⟨"alice", "hello there", "lobby", "[alice] hello there"⟩
        = ([fingerprint ⟨"alice", "hello there", "lobby", "[alice] hello there"⟩], true)
    ∧ monitorStep id
        [fingerprint ⟨"alice", "hello there", "lobby", "[alice] hello there"⟩]
        ⟨"alice", "hello there", "lobby", "[alice] hello there"⟩
        = ([fingerprint ⟨"alice", "hello there", "lobby", "[alice] hello there"⟩], false) :=
  ⟨by decide,
   (C7_message_extractor "sdfuser" "lobby" (by decide)).1,
   (C7_message_extractor "sdfuser" "lobby" (by decide)).2.1,
   by decide,
   ((C7_message_extractor "sdfuser" "lobby" (by decide)).2.2 id []
      ⟨"alice", "hello there", "lobby", "[alice] hello there"⟩ (by decide) (by decide)).1,
   ((C7_message_extractor "sdfuser" "lobby" (by decide)).2.2 id []
      ⟨"alice", "hello there", "lobby", "[alice] hello there"⟩ (by decide) (by decide)).2⟩

/-- Modelled from the spec: the ScreenEmulator (spec section 4.1) is realised
in the source by the external pyte library (`pyte.Screen` / `pyte.Stream`,
lines 280-281 and 314-315), which is not part of this repository.  Grid of
`rows × cols` characters (blank-filled) plus a cursor; a plain printable
character is placed at the cursor, which advances one column (out-of-grid
input is dropped without error), and a newline moves the cursor to the
start of the next row. -/
structure Screen where
  rows : Nat
  cols : Nat
  cell : Nat → Nat → Char
  curR : Nat
  curC : Nat

/-- A freshly created emulator: blank grid, cursor at the origin
(`pyte.Screen(width, height)`, line 280). -/
def initScreen (rows cols : Nat) : Screen :=
  ⟨rows, cols, fun _ _ => ' ', 0, 0⟩

/-- Modelled from the spec: feeding one byte into the emulator
(`self._stream.feed(decoded)`, line 315), restricted to the byte class of
the claim — plain printable characters and newlines. -/
def feedChar (s : Screen) (ch : Char) : Screen :=
  if ch = '\n' then { s with curR := s.curR + 1, curC := 0 }
  else if s.curR < s.rows ∧ s.curC < s.cols then
    { s with
      cell := fun r c => if r = s.curR ∧ c = s.curC then ch else s.cell r c,
      curC := s.curC + 1 }
  else s

/-- Feeding a byte sequence, one character at a time. -/
def feedList (s : Screen) (cs : List Char) : Screen :=
  cs.foldl feedChar s

/-- Python str.rstrip on a character list (trailing whitespace only), as in
`line.rstrip()`, line 427. -/
def pyRstrip (l : List Char) : List Char :=
  (l.reverse.dropWhile isPyWs).reverse

/-- One rendered grid row of AsyncSSHConnection.get_screen_text (lines
421-427): the row's characters concatenated, trailing blanks stripped. -/
def renderRow (s : Screen) (r : Nat) : String :=
  String.mk (pyRstrip ((List.range s.cols).map (fun c => s.cell r c)))

/-- AsyncSSHConnection.get_screen_text, lines 417-429: all grid rows, each
trailing-stripped, joined with newlines. -/
def render (s : Screen) : String :=
  String.intercalate "\n" ((List.range s.rows).map (renderRow s))

/-- Plain printable character (ASCII 0x20 to 0x7e): the byte class the
claim quantifies over. -/
def isPlainPrintable (c : Char) : Bool :=
  decide (32 ≤ c.toNat ∧ c.toNat ≤ 126)

/-- Lines joined with single newline separators; every byte sequence made
of printable characters and newlines arises uniquely this way from its
lines. -/
def joinNL : List (List Char) → List Char
  | [] => []
  | [l] => l
  | l :: l2 :: ls => l ++ '\n' :: joinNL (l2 :: ls)

theorem isPlainPrintable_ne_newline {c : Char} (h : isPlainPrintable c = true) :
    ¬ c = '\n' := by
  intro hc
  subst hc
  exact absurd h (by decide)

theorem dropWhile_replicate_blank (k : Nat) (t : List Char) :
    List.dropWhile isPyWs (List.replicate k ' ' ++ t) = List.dropWhile isPyWs t := by
  induction k with
  | zero => simp
  | succ k ih =>
    rw [List.replicate_succ, List.cons_append, List.dropWhile_cons]
    simp only [show isPyWs ' ' = true from by decide, if_true]
    exact ih

theorem pyRstrip_append_blanks (l : List Char) (k : Nat) :
    pyRstrip (l ++ List.replicate k ' ') = pyRstrip l := by
  unfold pyRstrip
  rw [List.reverse_append, List.reverse_replicate, dropWhile_replicate_blank]

theorem pyRstrip_replicate_blank (k : Nat) :
    pyRstrip (List.replicate k ' ') = [] := by
  have := pyRstrip_append_blanks [] k
  simpa [pyRstrip] using this

theorem range_map_if (cols len : Nat) (f : Nat → Char) (h : len ≤ cols) :
    (List.range cols).map (fun c => if c < len then f c else ' ')
      = (List.range len).map f ++ List.replicate (cols - len) ' ' := by
  apply List.ext_getElem
  · simp only [List.length_map, List.length_range, List.length_append,
      List.length_replicate]
    omega
  · intro i h1 h2
    simp only [List.getElem_map, List.getElem_range]
    by_cases hi : i < len
    · rw [if_pos hi]
      rw [List.getElem_append_left (by simpa using hi)]
      simp
    · rw [if_neg hi]
      rw [List.getElem_append_right (by simpa using hi)]
      simp

theorem map_getD_self (l : List Char) :
    (List.range l.length).map (fun c => l.getD c ' ') = l := by
  apply List.ext_getElem
  · simp
  · intro i h1 h2
    simp only [List.getElem_map, List.getElem_range]
    rw [List.getD_eq_getElem]

theorem feedList_line (cs : List Char) :
    ∀ (s : Screen), (∀ c ∈ cs, isPlainPrintable c = true) →
      s.curR < s.rows → s.curC + cs.length ≤ s.cols →
      (feedList s cs).rows = s.rows
      ∧ (feedList s cs).cols = s.cols
      ∧ (feedList s cs).curR = s.curR
      ∧ (feedList s cs).curC = s.curC + cs.length
      ∧ ∀ r c, (feedList s cs).cell r c
          = if r = s.curR ∧ s.curC ≤ c ∧ c < s.curC + cs.length
            then cs.getD (c - s.curC) ' ' else s.cell r c := by
  induction cs with
  | nil =>
    intro s _ _ _
    refine ⟨rfl, rfl, rfl, by simp [feedList], ?_⟩
    intro r c
    rw [if_neg (by simp only [List.length_nil]; omega)]
    rfl
  | cons ch cs ih =>
    intro s hpr hrow hfit
    have hch : isPlainPrintable ch = true := hpr ch (List.mem_cons_self ch cs)
    have hcol : s.curC < s.cols := by
      have := hfit
      simp only [List.length_cons] at this
      omega
    have hstep : feedChar s ch
        = { s with
            cell := fun r c => if r = s.curR ∧ c = s.curC then ch else s.cell r c,
            curC := s.curC + 1 } := by
      rw [feedChar, if_neg (isPlainPrintable_ne_newline hch),
        if_pos ⟨hrow, hcol⟩]
    have hfold : feedList s (ch :: cs) = feedList (feedChar s ch) cs := rfl
    set s1 : Screen :=
      { s with
        cell := fun r c => if r = s.curR ∧ c = s.curC then ch else s.cell r c,
        curC := s.curC + 1 } with hs1
    have ih1 := ih s1 (fun c hc => hpr c (List.mem_cons_of_mem ch hc))
      (by simpa [hs1] using hrow)
      (by
        simp only [hs1, List.length_cons] at hfit ⊢
        omega)
    rw [hfold, hstep]
    refine ⟨ih1.1, ih1.2.1, by simpa using ih1.2.2.1, ?_, ?_⟩
    · rw [ih1.2.2.2.1]
      simp only [hs1, List.length_cons]
      omega
    · intro r c
      rw [ih1.2.2.2.2 r c]
      by_cases h2 : r = s1.curR ∧ s1.curC ≤ c ∧ c < s1.curC + cs.length
      · rw [if_pos h2]
        have hr : r = s.curR := by simpa [hs1] using h2.1
        have hc1 : s.curC + 1 ≤ c := by simpa [hs1] using h2.2.1
        have hc2 : c < s.curC + 1 + cs.length := by simpa [hs1] using h2.2.2
        rw [if_pos ⟨hr, by omega, by simp only [List.length_cons]; omega⟩]
        simp only [hs1]
        rw [show c - s.curC = (c - (s.curC + 1)) + 1 from by omega,
          List.getD_cons_succ]
      · rw [if_neg h2]
        simp only [hs1] at h2
        by_cases h3 : r = s.curR ∧ c = s.curC
        · simp only [hs1]
          rw [if_pos h3]
          rw [if_pos ⟨h3.1, by omega, by simp only [List.length_cons]; omega⟩]
          rw [show c - s.curC = 0 from by omega, List.getD_cons_zero]
        · simp only [hs1]
          rw [if_neg h3]
          rw [if_neg (by
            intro hcon
            obtain ⟨hr, hc1, hc2⟩ := hcon
            simp only [List.length_cons] at hc2
            by_cases hc0 : c = s.curC
            · exact h3 ⟨hr, hc0⟩
            · exact h2 ⟨hr, by omega, by omega⟩)]

theorem feedChar_newline (s : Screen) :
    feedChar s '\n' = { s with curR := s.curR + 1, curC := 0 } := by
  simp [feedChar]

theorem feedList_joinNL :
    ∀ (lines : List (List Char)) (s : Screen),
      (∀ l ∈ lines, ∀ c ∈ l, isPlainPrintable c = true) →
      (∀ l ∈ lines, l.length ≤ s.cols) →
      s.curR + lines.length ≤ s.rows →
      s.curC = 0 →
      (feedList s (joinNL lines)).rows = s.rows
      ∧ (feedList s (joinNL lines)).cols = s.cols
      ∧ ∀ r c, (feedList s (joinNL lines)).cell r c
          = if s.curR ≤ r ∧ r < s.curR + lines.length
                ∧ c < (lines.getD (r - s.curR) []).length
            then (lines.getD (r - s.curR) []).getD c ' '
            else s.cell r c
  | [], s, _, _, _, _ => by
    refine ⟨rfl, rfl, ?_⟩
    intro r c
    rw [if_neg (by simp only [List.length_nil]; omega)]
    rfl
  | [l], s, hpr, hfits, hrows, hc0 => by
    have hline := feedList_line l s (hpr l (by simp))
      (by simp only [List.length_cons, List.length_nil] at hrows; omega)
      (by rw [hc0]; simpa using hfits l (by simp))
    obtain ⟨h1, h2, _, _, hcell⟩ := hline
    refine ⟨h1, h2, ?_⟩
    intro r c
    rw [show joinNL [l] = l from rfl] at *
    rw [hcell r c, hc0]
    by_cases hr : r = s.curR
    · subst hr
      rw [show s.curR - s.curR = 0 from by omega]
      simp only [List.getD_cons_zero]
      by_cases hc : c < l.length
      · rw [if_pos ⟨trivial, by omega, by omega⟩,
          if_pos ⟨Nat.le_refl _,
            by simp only [List.length_cons, List.length_nil]; omega, hc⟩]
        rw [show c - 0 = c from by omega]
      · rw [if_neg (by
            intro hcon
            exact hc (by simpa using hcon.2.2)),
          if_neg (by
            intro hcon
            exact hc hcon.2.2)]
    · rw [if_neg (fun hcon => hr hcon.1),
        if_neg (by
          intro hcon
          simp only [List.length_cons, List.length_nil] at hcon
          omega)]
  | l :: l2 :: ls, s, hpr, hfits, hrows, hc0 => by
    have hlen2 : (l :: l2 :: ls).length = ls.length + 2 := by simp
    have hline := feedList_line l s (hpr l (by simp))
      (by rw [hlen2] at hrows; omega)
      (by rw [hc0]; simpa using hfits l (by simp))
    obtain ⟨hrows1, hcols1, hcurR1, hcurC1, hcell1⟩ := hline
    have hsplit : feedList s (joinNL (l :: l2 :: ls))
        = feedList (feedChar (feedList s l) '\n') (joinNL (l2 :: ls)) := by
      simp only [joinNL, feedList, List.foldl_append, List.foldl_cons]
    have hrows2 : (feedChar (feedList s l) '\n').rows = s.rows := by
      rw [feedChar_newline]; exact hrows1
    have hcols2 : (feedChar (feedList s l) '\n').cols = s.cols := by
      rw [feedChar_newline]; exact hcols1
    have hcurR2 : (feedChar (feedList s l) '\n').curR = s.curR + 1 := by
      rw [feedChar_newline]
      show (feedList s l).curR + 1 = s.curR + 1
      rw [hcurR1]
    have hcurC2 : (feedChar (feedList s l) '\n').curC = 0 := by
      rw [feedChar_newline]
    have hcell2 : ∀ r c, (feedChar (feedList s l) '\n').cell r c
        = (feedList s l).cell r c := by
      intro r c
      rw [feedChar_newline]
    have ih := feedList_joinNL (l2 :: ls) (feedChar (feedList s l) '\n')
      (fun l' hl' => hpr l' (List.mem_cons_of_mem l hl'))
      (fun l' hl' => by rw [hcols2]; exact hfits l' (List.mem_cons_of_mem l hl'))
      (by
        rw [hcurR2, hrows2]
        rw [hlen2] at hrows
        simp only [List.length_cons]
        omega)
      hcurC2
    obtain ⟨ihrows, ihcols, ihcell⟩ := ih
    refine ⟨by rw [hsplit, ihrows, hrows2], by rw [hsplit, ihcols, hcols2], ?_⟩
    intro r c
    have hlen3 : (l2 :: ls).length = ls.length + 1 := by simp
    rw [hsplit, ihcell r c, hcurR2, hcell2, hcell1, hc0]
    by_cases hr : s.curR + 1 ≤ r
    · have hgetD : (l :: l2 :: ls).getD (r - s.curR) []
          = (l2 :: ls).getD (r - (s.curR + 1)) [] := by
        rw [show r - s.curR = (r - (s.curR + 1)) + 1 from by omega,
          List.getD_cons_succ]
      by_cases hcond : s.curR + 1 ≤ r ∧ r < s.curR + 1 + (l2 :: ls).length
          ∧ c < ((l2 :: ls).getD (r - (s.curR + 1)) []).length
      · rw [if_pos hcond, if_pos (by
          rw [hgetD]
          exact ⟨by omega, by omega, hcond.2.2⟩)]
        rw [hgetD]
      · rw [if_neg hcond]
        rw [if_neg (show ¬(r = s.curR ∧ 0 ≤ c ∧ c < 0 + l.length) from by
          intro hcon
          omega)]
        rw [if_neg (by
          intro hcon
          have hcc := hcon.2.2
          rw [hgetD] at hcc
          exact hcond ⟨hr, by omega, hcc⟩)]
    · rw [if_neg (by
        intro hcon
        exact hr hcon.1)]
      by_cases hr2 : r = s.curR
      · subst hr2
        rw [show s.curR - s.curR = 0 from by omega, List.getD_cons_zero]
        by_cases hc : c < l.length
        · rw [if_pos ⟨rfl, by omega, by omega⟩,
            if_pos ⟨Nat.le_refl _, by omega, hc⟩]
          rw [show c - 0 = c from by omega]
        · rw [if_neg (by omega), if_neg (fun hcon => hc hcon.2.2)]
      · rw [if_neg (fun hcon => hr2 hcon.1),
          if_neg (by
            intro hcon
            omega)]

/-- C9: feeding any sequence of plain printable characters and newlines that
fits the grid (presented as its list of lines: at most `rows` lines, each at
most `cols` characters, all printable) into a fresh emulator and rendering
reproduces exactly those lines, one grid row per line, each with its
trailing whitespace trimmed, followed by the remaining blank rows rendered
as empty lines. -/
theorem C9_screen_renders_lines (rows cols : Nat) (lines : List (List Char))
    (hlen : lines.length ≤ rows)
    (hfit : ∀ l ∈ lines, l.length ≤ cols)
    (hprint : ∀ l ∈ lines, ∀ c ∈ l, isPlainPrintable c = true) :
    render (feedList (initScreen rows cols) (joinNL lines))
      = String.intercalate "\n"
          (lines.map (fun l => String.mk (pyRstrip l))
            ++ List.replicate (rows - lines.length) "") := by
  obtain ⟨hrows, hcols, hcell⟩ := feedList_joinNL lines (initScreen rows cols)
    hprint hfit (by simpa [initScreen] using hlen) rfl
  have hrows' : (feedList (initScreen rows cols) (joinNL lines)).rows = rows := hrows
  have hcols' : (feedList (initScreen rows cols) (joinNL lines)).cols = cols := hcols
  have hcell' : ∀ r c, (feedList (initScreen rows cols) (joinNL lines)).cell r c
      = if r < lines.length ∧ c < (lines.getD r []).length
        then (lines.getD r []).getD c ' ' else ' ' := by
    intro r c
    rw [hcell r c]
    simp [initScreen]
  unfold render
  rw [hrows']
  congr 1
  apply List.ext_getElem
  · simp only [List.length_map, List.length_range, List.length_append,
      List.length_replicate]
    omega
  · intro i h1 h2
    simp only [List.getElem_map, List.getElem_range]
    rw [renderRow, hcols']
    by_cases hi : i < lines.length
    · have hfin : (lines.getD i []).length ≤ cols := by
        rw [List.getD_eq_getElem lines [] hi]
        exact hfit lines[i] (List.getElem_mem hi)
      have hval : ∀ c, (feedList (initScreen rows cols) (joinNL lines)).cell i c
          = if c < (lines.getD i []).length then (lines.getD i []).getD c ' ' else ' ' := by
        intro c
        rw [hcell' i c]
        by_cases hc : c < (lines.getD i []).length
        · rw [if_pos ⟨hi, hc⟩, if_pos hc]
        · rw [if_neg (fun hcon => hc hcon.2), if_neg hc]
      have hmap : (List.range cols).map
            (fun c => (feedList (initScreen rows cols) (joinNL lines)).cell i c)
          = (lines.getD i []) ++ List.replicate (cols - (lines.getD i []).length) ' ' := by
        rw [List.map_congr_left (fun c _ => hval c)]
        rw [range_map_if cols (lines.getD i []).length
          (fun c => (lines.getD i []).getD c ' ') hfin]
        rw [map_getD_self]
      rw [hmap, pyRstrip_append_blanks]
      rw [List.getElem_append_left (by simpa using hi)]
      simp only [List.getElem_map]
      rw [List.getD_eq_getElem lines [] hi]
    · have hval : ∀ c, (feedList (initScreen rows cols) (joinNL lines)).cell i c = ' ' := by
        intro c
        rw [hcell' i c]
        rw [if_neg (fun hcon => hi hcon.1)]
      have hmap : (List.range cols).map
            (fun c => (feedList (initScreen rows cols) (joinNL lines)).cell i c)
          = List.replicate cols ' ' := by
        rw [List.map_congr_left (fun c _ => hval c)]
        simp
      rw [hmap, pyRstrip_replicate_blank]
      rw [List.getElem_append_right (by simpa using hi)]
      simp

theorem C9_screen_renders_lines_witness :
    (([['h', 'i', ' '], []] : List (List Char)).length ≤ 3
      ∧ (∀ l ∈ ([['h', 'i', ' '], []] : List (List Char)), l.length ≤ 5)
      ∧ (∀ l ∈ ([['h', 'i', ' '], []] : List (List Char)), ∀ c ∈ l,
          isPlainPrintable c = true))
    ∧ render (feedList (initScreen 3 5) (joinNL [['h', 'i', ' '], []]))
        = String.intercalate "\n"
            (([['h', 'i', ' '], []] : List (List Char)).map
                (fun l => String.mk (pyRstrip l))
              ++ List.replicate (3 - ([['h', 'i', ' '], []] : List (List Char)).length) "") :=
  ⟨⟨by decide, by decide, by decide⟩,
   C9_screen_renders_lines 3 5 [['h', 'i', ' '], []] (by decide) (by decide) (by decide)⟩

end Sdfai
